import Mathlib

/-!
Shallow embedding of the DNS heartbeat monitor
(`heartbeat/monitors/active/dns`: `dns.go`, its config and check files)
for verification of the natural-language specification.

Strings are modelled as `List Char` (`Str`).  Go errors created with
`fmt.Errorf`/`errors.New` are modelled by the structured inductive `GoErr`,
one constructor per error-creation site, carrying the values interpolated
into the message.  Fallible Go functions return `Except GoErr _`.

External collaborators (Go standard library) used by the code under
verification are modelled from their documented behaviour:
* `net/url.Parse` — scheme detection, opaque/authority split, host/port
  split and validation (`urlParse` below).  Percent-escape validation,
  bracketed IPv6 hosts and Unicode case mapping beyond ASCII are elided;
  no claim exercises them.
* `net.ParseIP` — IPv4 dotted-quad parsing (`goParseIP`).  IPv6 literals
  (first separator a colon) are modelled as unparseable; no claim
  exercises IPv6.
* `strconv.Atoi` — `goAtoi`, with the 64-bit signed range check.
* `strings.ToLower` / `strings.Split` / `strings.Join` — `goToLower`,
  `splitOnChar`, `joinSpace` (ASCII case mapping).
-/

abbrev Str := List Char

/-- ASCII uppercase letter test (used to model `strings.ToLower`). -/
def isUpperA (c : Char) : Bool := 'A' ≤ c && c ≤ 'Z'

/-- ASCII decimal digit test. -/
def isDigitC (c : Char) : Bool := '0' ≤ c && c ≤ '9'

/-- ASCII letter test (Go `getScheme` treats only ASCII letters as scheme starters). -/
def isAlphaC (c : Char) : Bool := ('a' ≤ c && c ≤ 'z') || ('A' ≤ c && c ≤ 'Z')

/-- Lower-case one character: `strings.ToLower`, ASCII fragment. -/
def lowerChar (c : Char) : Char :=
  if isUpperA c then Char.ofNat (c.toNat + 32) else c

/-- Model of `strings.ToLower` (ASCII fragment). -/
def goToLower (s : Str) : Str := s.map lowerChar

/-- Model of `strings.Join(xs, " ")`. -/
def joinSpace : List Str → Str
  | [] => []
  | [x] => x
  | x :: xs => x ++ ' ' :: joinSpace xs

/-- Structured model of every Go `error` value produced by the embedded code,
one constructor per `fmt.Errorf`/`errors.New` site, carrying the values that
the source interpolates into the message. -/
inductive GoErr where
  /-- `net/url`: "missing protocol scheme". -/
  | missingProtocolScheme : GoErr
  /-- `net/url`: "invalid control character in URL". -/
  | invalidControlChar : GoErr
  /-- `net/url`: "first path segment in URL cannot contain colon". -/
  | firstPathSegmentColon : GoErr
  /-- `net/url`: "invalid port %q after host". -/
  | invalidPortAfterHost (colonPort : Str) : GoErr
  /-- `net/url`: "net/url: invalid userinfo". -/
  | invalidUserinfo : GoErr
  /-- `dns.go`: "invalid protocol specified %s". -/
  | invalidProtocol (scheme : Str) : GoErr
  /-- `dns.go`: "dns server address is mandatory". -/
  | serverAddressMandatory : GoErr
  /-- `dns.go`: "invalid port: %v" (wrapping the `strconv.Atoi` failure). -/
  | invalidPortAtoi (portStr : Str) : GoErr
  /-- config: "unknown record type for record_type: '%s', ...". -/
  | unknownRecordType (recordType : Str) : GoErr
  /-- config: "invalid DNS server: %s". -/
  | invalidDNSServer (address : Str) : GoErr
  /-- check: "record value of '%s' does not match expected value '%s'". -/
  | valueMismatch (actual expected : Str) : GoErr
  /-- check: "record type of '%s' does not match expected type '%s'". -/
  | typeMismatch (actual expected : Str) : GoErr
deriving DecidableEq, Repr

/-- The fields of Go's `url.URL` that the embedded code reads
(`Scheme`, `Host`, plus `Opaque`/`Path` to keep the parse total). -/
structure URL where
  scheme : Str
  opaquePart : Str
  host : Str
  path : Str
deriving DecidableEq, Repr

/-- Cut a list at the first occurrence of `c`: returns the part before it and,
when found, the part after it (the separator dropped). -/
def cutFirst (c : Char) : Str → Str × Option Str
  | [] => ([], none)
  | x :: xs =>
    if x = c then ([], some xs)
    else
      let r := cutFirst c xs
      (x :: r.1, r.2)

/-- Split a list at the last occurrence of `c` (separator dropped);
`none` when `c` does not occur. -/
def splitLastChar (c : Char) : Str → Option (Str × Str)
  | [] => none
  | x :: xs =>
    match splitLastChar c xs with
    | some (pre, post) => some (x :: pre, post)
    | none => if x = c then some ([], xs) else none

/-- Go `net/url.getScheme` loop: `pre` holds the characters consumed so far
(`pre = []` corresponds to index 0), `orig` the full input. -/
def getSchemeAux (orig : Str) (pre : Str) : Str → Except GoErr (Str × Str)
  | [] => .ok ([], orig)
  | c :: cs =>
    if isAlphaC c then getSchemeAux orig (pre ++ [c]) cs
    else if isDigitC c || c = '+' || c = '-' || c = '.' then
      if pre = [] then .ok ([], orig) else getSchemeAux orig (pre ++ [c]) cs
    else if c = ':' then
      if pre = [] then .error .missingProtocolScheme else .ok (pre, cs)
    else .ok ([], orig)

/-- Model of Go `net/url.getScheme`: split `rawURL` into scheme and remainder. -/
def getScheme (rawURL : Str) : Except GoErr (Str × Str) :=
  getSchemeAux rawURL [] rawURL

/-- Model of Go `net/url.validOptionalPort` applied to the characters after
the colon: empty or all decimal digits. -/
def portDigitsOk (post : Str) : Bool := post.all isDigitC

/-- Model of Go `net/url.splitHostPort`: split the `Host` field at the last
colon when a valid optional port follows it, then strip IPv6 brackets. -/
def splitHostPort (hostPort : Str) : Str × Str :=
  let hp :=
    match splitLastChar ':' hostPort with
    | some (pre, post) => if portDigitsOk post then (pre, post) else (hostPort, ([] : Str))
    | none => (hostPort, ([] : Str))
  let host :=
    if hp.1.head? = some '[' ∧ hp.1.getLast? = some ']' then (hp.1.drop 1).dropLast else hp.1
  (host, hp.2)

/-- Model of Go `net/url.parseHost` (non-bracketed hosts; percent-escape
validation elided): reject a trailing `:port` that is not all digits. -/
def parseHost (host : Str) : Except GoErr Str :=
  match splitLastChar ':' host with
  | some (_, post) =>
    if portDigitsOk post then .ok host else .error (.invalidPortAfterHost (':' :: post))
  | none => .ok host

/-- Model of Go `net/url.validUserinfo` (allowed character set; the
apostrophe and other sub-delimiters are listed by code point). -/
def validUserinfo (s : Str) : Bool :=
  s.all fun r =>
    ('A' ≤ r && r ≤ 'Z') || ('a' ≤ r && r ≤ 'z') || ('0' ≤ r && r ≤ '9') ||
      (r.toNat ∈ [45, 46, 95, 58, 126, 33, 36, 38, 39, 40, 41, 42, 43, 44, 59, 61, 37, 64])

/-- Model of Go `net/url.parseAuthority`: optional userinfo before the last
`@`, then the host; a host error takes precedence over a userinfo error. -/
def parseAuthority (authority : Str) : Except GoErr Str :=
  match splitLastChar '@' authority with
  | none => parseHost authority
  | some (userinfo, hostPart) => do
    let host ← parseHost hostPart
    if validUserinfo userinfo then pure host else throw .invalidUserinfo

/-- Go `net/url.stringContainsCTLByte`. -/
def containsCTL (s : Str) : Bool := s.any fun c => c.toNat < 32 || c.toNat = 127

/-- The effect of Go `net/url.parse`'s query handling on `rest`
(the `RawQuery`/`ForceQuery` outputs themselves are not read downstream). -/
def stripQuery (rest : Str) : Str :=
  if rest.getLast? = some '?' ∧ ¬ rest.dropLast.contains '?' then rest.dropLast
  else (cutFirst '?' rest).1

/-- Authority cut used by Go `net/url.parse`: the part before the first `/`,
and the remainder starting at that `/` (empty when there is none). -/
def cutKeepFirst (c : Char) (s : Str) : Str × Str :=
  match cutFirst c s with
  | (_, none) => (s, [])
  | (pre, some post) => (pre, c :: post)

/-- Model of Go `net/url.parse` with `viaRequest = false`
(the body of `url.Parse` after the fragment is cut off). -/
def parseMain (rawURL : Str) : Except GoErr URL := do
  if containsCTL rawURL then throw .invalidControlChar
  if rawURL = ['*'] then
    return { scheme := [], opaquePart := [], host := [], path := ['*'] }
  let (scheme0, rest0) ← getScheme rawURL
  let scheme := goToLower scheme0
  let rest := stripQuery rest0
  if rest.head? ≠ some '/' then
    if scheme ≠ [] then
      return { scheme := scheme, opaquePart := rest, host := [], path := [] }
    else
      if ((cutFirst '/' rest).1).contains ':' then throw .firstPathSegmentColon
  if (scheme ≠ [] ∨ ¬ ('/' :: '/' :: '/' :: []).isPrefixOf rest) ∧
      ('/' :: '/' :: []).isPrefixOf rest then
    let cut := cutKeepFirst '/' (rest.drop 2)
    let host ← parseAuthority cut.1
    return { scheme := scheme, opaquePart := [], host := host, path := cut.2 }
  else
    return { scheme := scheme, opaquePart := [], host := [], path := rest }

/-- Model of Go `net/url.Parse`: cut off the fragment at the first `#`
(fragment contents are validated in Go but never read by this code), then
parse the remainder. -/
def urlParse (rawURL : Str) : Except GoErr URL :=
  parseMain (cutFirst '#' rawURL).1

/-- `Hostname()` of Go's `url.URL`. -/
def urlHostname (u : URL) : Str := (splitHostPort u.host).1

/-- `Port()` of Go's `url.URL`. -/
def urlPort (u : URL) : Str := (splitHostPort u.host).2

/-- Model of Go `strconv.Atoi`: optional sign, decimal digits, 64-bit signed
range; anything else is an error (the error value itself is not read by the
embedded code, which wraps it generically). -/
def goAtoi (s : Str) : Except Unit Int :=
  let sd : Bool × Str :=
    match s with
    | '-' :: rest => (true, rest)
    | '+' :: rest => (false, rest)
    | _ => (false, s)
  if sd.2 = [] then .error ()
  else if ¬ sd.2.all isDigitC then .error ()
  else
    let n : Nat := sd.2.foldl (fun acc c => acc * 10 + (c.toNat - 48)) 0
    if sd.1 then
      if n ≤ 9223372036854775808 then .ok (-(n : Int)) else .error ()
    else
      if n < 9223372036854775808 then .ok (n : Int) else .error ()

/-- The `DNSSvr` structure of `dns.go` (fields `U`, `URL`, `Protocol`,
`Address`, `Port`). -/
structure DNSSvr where
  u : URL
  url : Str
  protocol : Str
  address : Str
  port : Int
deriving DecidableEq, Repr

def udpStr : Str := "udp".toList

def tcpStr : Str := "tcp".toList

def tcpTlsStr : Str := "tcp-tls".toList

/-- The `udp://` prefix that `parseDNSSvr` synthesizes for scheme-less input. -/
def udpPfx : Str := "udp://".toList

/-- The tail of `parseDNSSvr` after a `url.URL` has been obtained
(scheme check, mandatory hostname, port defaulting): builds the `DNSSvr`
whose `URL` field is the — possibly prefixed — `addr` string. -/
def parseFinish (addr : Str) (u : URL) : Except GoErr DNSSvr :=
  if goToLower u.scheme = udpStr ∨ goToLower u.scheme = tcpStr then
    if urlHostname u = [] then .error .serverAddressMandatory
    else
      if urlPort u = [] then
        .ok { u := u, url := addr, protocol := goToLower u.scheme,
              address := goToLower (urlHostname u), port := 53 }
      else
        match goAtoi (urlPort u) with
        | .error _ => .error (.invalidPortAtoi (urlPort u))
        | .ok n =>
          .ok { u := u, url := addr, protocol := goToLower u.scheme,
                address := goToLower (urlHostname u), port := n }
  else .error (.invalidProtocol u.scheme)

/-- Model of `parseDNSSvr` (`dns.go`): parse the lower-cased address; on a
parse error, or when the host is empty, prepend `udp://` and re-parse
(the two fallbacks are sequential in the source, so the prefix can be
applied twice); then validate scheme, hostname and port. -/
def parseDNSSvr (addr : Str) : Except GoErr DNSSvr :=
  match urlParse (goToLower addr) with
  | .ok u =>
    if u.host = [] then
      match urlParse (goToLower (udpPfx ++ addr)) with
      | .ok u2 => parseFinish (udpPfx ++ addr) u2
      | .error e => .error e
    else parseFinish addr u
  | .error _ =>
    match urlParse (goToLower (udpPfx ++ addr)) with
    | .ok u =>
      if u.host = [] then
        match urlParse (goToLower (udpPfx ++ (udpPfx ++ addr))) with
        | .ok u2 => parseFinish (udpPfx ++ (udpPfx ++ addr)) u2
        | .error e => .error e
      else parseFinish (udpPfx ++ addr) u
    | .error e => .error e

/-- Model of Go `strings.Split(s, sep)` for a one-character separator
(`acc` accumulates the current field in reverse; the empty input yields
one empty field, as in Go). -/
def splitOnCharAux (c : Char) (acc : Str) : Str → List Str
  | [] => [acc.reverse]
  | x :: xs =>
    if x = c then acc.reverse :: splitOnCharAux c [] xs
    else splitOnCharAux c (x :: acc) xs

/-- Model of Go `strings.Split(s, String c)`. -/
def splitOnChar (c : Char) (s : Str) : List Str := splitOnCharAux c [] s

/-- `isAlphanumeric` of the monitor's config file: every rune is an ASCII
letter, digit or hyphen. -/
def isAlphanumeric (s : Str) : Bool :=
  s.all fun r =>
    !((r < 'a' || r > 'z') && (r < 'A' || r > 'Z') && (r < '0' || r > '9') && !(r = '-'))

/-- `isValidHostname` of the monitor's config file: at most 255 characters,
and every dot-separated label is 1–63 characters of `isAlphanumeric`. -/
def isValidHostname (hostname : Str) : Bool :=
  if hostname.length > 255 then false
  else
    (splitOnChar '.' hostname).all fun part =>
      !(part.length = 0 || part.length > 63 || !isAlphanumeric part)

/-- One field of an IPv4 dotted quad, as accepted by Go's `net.ParseIP`:
1–3 decimal digits, no leading zero, value at most 255. -/
def parseV4Field (f : Str) : Option Nat :=
  if f = [] then none
  else if f.length > 3 then none
  else if ¬ f.all isDigitC then none
  else if f.length > 1 ∧ f.head? = some '0' then none
  else
    let n := f.foldl (fun acc c => acc * 10 + (c.toNat - 48)) 0
    if n > 255 then none else some n

/-- IPv4 dotted-quad parse, as accepted by Go's `net.ParseIP`. -/
def parseIPv4 (s : Str) : Option (List Nat) :=
  match splitOnChar '.' s with
  | [a, b, c, d] =>
    match parseV4Field a, parseV4Field b, parseV4Field c, parseV4Field d with
    | some a', some b', some c', some d' => some [a', b', c', d']
    | _, _, _, _ => none
  | _ => none

/-- Model of Go `net.ParseIP`: the first `.` or `:` decides the family.
IPv6 parsing is elided (modelled as failing); no claim exercises IPv6
literals. -/
def goParseIP : Str → Option (List Nat)
  | s =>
    match cutFirst '.' s, cutFirst ':' s with
    | (_, some _), (pre, some _) => if ('.' : Char) ∈ pre then parseIPv4 s else none
    | (_, some _), (_, none) => parseIPv4 s
    | (_, none), _ => none

/-- The `responseParameters` structure of the monitor's config file. -/
structure ResponseParameters where
  authoritative : Bool
  recordType : Str
  value : Str
deriving DecidableEq, Repr

/-- The fixed supported record types of `responseParameters.Validate`. -/
def supportedRecordTypes : List Str :=
  ["a".toList, "aaaa".toList, "cname".toList, "txt".toList]

/-- `responseParameters.Validate`: the lower-cased record type must be one
of the four supported tags, otherwise the unknown-record-type error. -/
def ResponseParameters.Validate (r : ResponseParameters) : Except GoErr Unit :=
  if goToLower r.recordType ∈ supportedRecordTypes then .ok ()
  else .error (.unknownRecordType r.recordType)

/-- The `checkConfig` structure of the monitor's config file. -/
structure CheckConfig where
  response : ResponseParameters
deriving DecidableEq, Repr

/-- The `Config` structure of the monitor's config file, restricted to the
fields the verified code reads (`Transport.TLS != nil` is modelled by the
boolean `transportTLSSet`; the opaque TLS/transport/mode material is an
external collaborator). -/
structure Config where
  dnsServers : List Str
  target : Str
  timeout : Int
  transportTLSSet : Bool
  check : CheckConfig
deriving DecidableEq, Repr

/-- The body of `Config.ValidateDNS`'s loop for one server string: parse it,
then require the address to be an IP literal or a valid hostname. -/
def checkDNSServer (server : Str) : Except GoErr Unit :=
  match parseDNSSvr server with
  | .error e => .error e
  | .ok ds =>
    if (goParseIP ds.address).isNone ∧ ¬ isValidHostname ds.address then
      .error (.invalidDNSServer ds.address)
    else .ok ()

/-- The loop of `Config.ValidateDNS`: check the servers in order, returning
the first error. -/
def validateServers : List Str → Except GoErr Unit
  | [] => .ok ()
  | s :: rest =>
    match checkDNSServer s with
    | .error e => .error e
    | .ok _ => validateServers rest

/-- `Config.ValidateDNS` of the monitor's config file. -/
def Config.ValidateDNS (c : Config) : Except GoErr Unit :=
  validateServers c.dnsServers

/-- The header data of a `miekg/dns` resource record that the embedded code
reads (`Name`, `Rrtype` tag is implicit in the `RR` constructor, `Ttl`). -/
structure RRHeader where
  name : Str
  ttl : Nat
deriving DecidableEq, Repr

/-- A `miekg/dns` resource record as the embedded code's type switch sees it:
the four supported concrete types (`net.IP` values are modelled by their
`String()` rendering, the only operation applied to them; `dns.TXT` carries
its list of strings) and a catch-all for every other record type. -/
inductive RR where
  | a (hdr : RRHeader) (ip : Str) : RR
  | aaaa (hdr : RRHeader) (ip : Str) : RR
  | cname (hdr : RRHeader) (target : Str) : RR
  | txt (hdr : RRHeader) (txts : List Str) : RR
  | other (hdr : RRHeader) : RR
deriving DecidableEq, Repr

/-- `a.Header()` of a resource record. -/
def rrHdr : RR → RRHeader
  | .a h _ => h
  | .aaaa h _ => h
  | .cname h _ => h
  | .txt h _ => h
  | .other h => h

/-- The type switch shared verbatim by `checkDNSResult` and `execRequest`:
the decoded `(value, record_type)` pair for a supported record, `none`
(Go `continue`) otherwise. -/
def rrDecode : RR → Option (Str × Str)
  | .a _ ip => some (ip, "a".toList)
  | .aaaa _ ip => some (ip, "aaaa".toList)
  | .cname _ target => some (target, "cname".toList)
  | .txt _ txts => some (joinSpace txts, "txt".toList)
  | .other _ => none

/-- The `dns.Msg` fields read by the embedded code. -/
structure Msg where
  answer : List RR
deriving DecidableEq, Repr

/-- The loop of `checkDNSResult` over `r.Answer`: skip unsupported records;
on a supported record, fail with a value mismatch when the expected value is
set and differs from the lower-cased decoded value, else with a type
mismatch when the expected type is set and differs from the tag; otherwise
continue. -/
def checkDNSResultLoop (eValue eType : Str) : List RR → Except GoErr Unit
  | [] => .ok ()
  | rr :: rest =>
    match rrDecode rr with
    | none => checkDNSResultLoop eValue eType rest
    | some (value, recordType) =>
      if eValue ≠ [] ∧ eValue ≠ goToLower value then
        .error (.valueMismatch (goToLower value) eValue)
      else if eType ≠ [] ∧ eType ≠ recordType then
        .error (.typeMismatch recordType eType)
      else checkDNSResultLoop eValue eType rest

/-- `checkDNSResult` of the monitor's check file. -/
def checkDNSResult (r : Msg) (eValue eType : Str) : Except GoErr Unit :=
  checkDNSResultLoop eValue eType r.answer

/-- The `DNSAnswer` structure of `dns.go` (`Name`, `RRType`, `Value`, `TTL`;
the Go `int` TTL is the non-negative header TTL). -/
structure DNSAnswer where
  name : Str
  rrtype : Str
  value : Str
  ttl : Nat
deriving DecidableEq, Repr

/-- The decode loop of `execRequest` over `r.Answer`: supported records
become `DNSAnswer`s (name and value lower-cased, TTL from the header),
unsupported records are dropped. -/
def execDecode : List RR → List DNSAnswer
  | [] => []
  | rr :: rest =>
    match rrDecode rr with
    | none => execDecode rest
    | some (value, recordType) =>
      { name := goToLower (rrHdr rr).name, rrtype := recordType,
        value := goToLower value, ttl := (rrHdr rr).ttl } :: execDecode rest

/-- The per-answer event fields built by `execPing` (`ansFields`): the keys
`record_type`, `value` and `name` with the answer's fields as values. -/
def ansFields (a : DNSAnswer) : List (Str × Str) :=
  [("record_type".toList, a.rrtype), ("value".toList, a.value), ("name".toList, a.name)]

/-- The answer slice of the published `dns.response` fields
(`execPing` maps `ansFields` over `resp.Answer`). -/
def ansSlice (answers : List DNSAnswer) : List (List (Str × Str)) :=
  answers.map ansFields

/-- The transport (`dns.Client.Net`) selected by `createPingFactory`:
initialized to `udp`, upgraded to `tcp-tls` exactly when
`config.Transport.TLS != nil` and the endpoint scheme is `tcp`. -/
def clientNet (c : Config) (dnssvr : DNSSvr) : Str :=
  if c.transportTLSSet = true ∧ dnssvr.u.scheme = tcpStr then tcpTlsStr else udpStr

/-! Helper lemmas. -/

theorem toNat_ofNat_valid {n : Nat} (h : n.isValidChar) : (Char.ofNat n).toNat = n := by
  simp [Char.ofNat, dif_pos h, Char.ofNatAux, Char.toNat, UInt32.toNat]

/-- Lower-casing never yields an ASCII uppercase letter. -/
theorem lowerChar_not_upperA (c : Char) : isUpperA (lowerChar c) = false := by
  unfold lowerChar
  split
  case isTrue h =>
    unfold isUpperA at h ⊢
    rw [Bool.and_eq_true, decide_eq_true_eq, decide_eq_true_eq] at h
    have h1 : 65 ≤ c.toNat := h.1
    have h2 : c.toNat ≤ 90 := h.2
    have hv : (c.toNat + 32).isValidChar := by
      left
      omega
    have ht : (Char.ofNat (c.toNat + 32)).toNat = c.toNat + 32 := toNat_ofNat_valid hv
    rw [Bool.and_eq_false_iff]
    right
    rw [decide_eq_false_iff_not]
    intro hle
    have : (Char.ofNat (c.toNat + 32)).toNat ≤ (90 : Nat) := hle
    omega
  case isFalse h =>
    simpa using h

/-- No character of a lower-cased string is an ASCII uppercase letter. -/
theorem goToLower_no_upper (s : Str) (c : Char) (h : c ∈ goToLower s) :
    isUpperA c = false := by
  unfold goToLower at h
  obtain ⟨d, _, rfl⟩ := List.mem_map.mp h
  exact lowerChar_not_upperA d

/-- A string containing an ASCII uppercase letter never equals a lower-cased
string. -/
theorem upper_ne_goToLower (e v : Str) (h : ∃ c ∈ e, isUpperA c = true) :
    e ≠ goToLower v := by
  obtain ⟨c, hc, hu⟩ := h
  intro heq
  rw [heq] at hc
  rw [goToLower_no_upper v c hc] at hu
  cases hu

theorem urlHostname_nil (u : URL) (h : u.host = []) : urlHostname u = [] := by
  unfold urlHostname
  rw [h]
  rfl

/-- Structure of a successful `parseFinish`: the `URL`/`U` fields are the
inputs, and the hostname was non-empty. -/
theorem parseFinish_ok (addr : Str) (u : URL) (ds : DNSSvr)
    (h : parseFinish addr u = .ok ds) :
    ds.url = addr ∧ ds.u = u ∧ urlHostname u ≠ [] := by
  unfold parseFinish at h
  split at h
  · split at h
    · cases h
    · next hhn =>
      split at h
      · injection h with h2
        subst h2
        exact ⟨rfl, rfl, hhn⟩
      · split at h
        · cases h
        · injection h with h2
          subst h2
          exact ⟨rfl, rfl, hhn⟩
  · cases h

/-! Concrete values used by witnesses and counterexamples. -/

/-- The default `checkConfig` (no assertions), as in `defaultConfig`. -/
def defaultCheck : CheckConfig :=
  { response := { authoritative := false, recordType := [], value := [] } }

/-- A configuration with the two valid server strings of the spec's examples. -/
def cfgGoodServers : Config :=
  { dnsServers := ["example.com".toList, "8.8.8.8".toList],
    target := "example.com".toList, timeout := 16,
    transportTLSSet := false, check := defaultCheck }

/-- A configuration whose only server string is the invalid hostname. -/
def cfgInvalidHost : Config :=
  { dnsServers := ["invalid..hostname".toList],
    target := "example.com".toList, timeout := 16,
    transportTLSSet := false, check := defaultCheck }

/-- A configuration with two invalid server strings. -/
def cfgTwoBad : Config :=
  { dnsServers := ["invalid..hostname".toList, "also..bad".toList],
    target := "example.com".toList, timeout := 16,
    transportTLSSet := false, check := defaultCheck }

/-- A configuration whose only server string is 256.256.256.256. -/
def cfg256 : Config :=
  { dnsServers := ["256.256.256.256".toList],
    target := "example.com".toList, timeout := 16,
    transportTLSSet := false, check := defaultCheck }

/-- A configuration with one valid IP server string and no TLS. -/
def cfgOneGood : Config :=
  { dnsServers := ["8.8.8.8".toList],
    target := "example.com".toList, timeout := 16,
    transportTLSSet := false, check := defaultCheck }

/-- The same configuration with transport TLS material configured. -/
def cfgOneGoodTLS : Config :=
  { dnsServers := ["8.8.8.8".toList],
    target := "example.com".toList, timeout := 16,
    transportTLSSet := true, check := defaultCheck }

/-- The endpoint `parseDNSSvr` produces for `example.com`. -/
def dsExample : DNSSvr :=
  { u := { scheme := udpStr, opaquePart := [], host := "example.com".toList, path := [] },
    url := "udp://example.com".toList, protocol := udpStr,
    address := "example.com".toList, port := 53 }

/-- The endpoint `parseDNSSvr` produces for `tcp://8.8.8.8`. -/
def dsTcp : DNSSvr :=
  { u := { scheme := tcpStr, opaquePart := [], host := "8.8.8.8".toList, path := [] },
    url := "tcp://8.8.8.8".toList, protocol := tcpStr,
    address := "8.8.8.8".toList, port := 53 }

/-- A decoded A answer used as a concrete test record. -/
def rrA : RR := .a { name := "example.com.".toList, ttl := 300 } ("8.8.8.8".toList)

/-- The `DNSAnswer` that `execRequest` decodes from `rrA`. -/
def ansExample : DNSAnswer :=
  { name := "example.com.".toList, rrtype := "a".toList,
    value := "8.8.8.8".toList, ttl := 300 }

/-! Claim C1. -/

/-- C1: for every non-empty expectation (expected value set, expected record
type set, or both), validating a result whose answer sequence is empty
returns success, not a mismatch error: `checkDNSResult`'s loop body never
runs, so the function falls through to `nil`. -/
theorem checkDNSResult_empty_answers_ok (eValue eType : Str)
    (_h : eValue ≠ [] ∨ eType ≠ []) :
    checkDNSResult { answer := [] } eValue eType = .ok () := rfl

/-- Witness for C1 at a concrete non-empty expectation (both assertions set). -/
theorem checkDNSResult_empty_answers_ok_witness :
    checkDNSResult { answer := [] } ("8.8.8.8".toList) ("a".toList) = .ok () :=
  checkDNSResult_empty_answers_ok ("8.8.8.8".toList) ("a".toList) (Or.inl (by decide))

/-! Claim C2. -/

/-- C2 counterexample: the unset (empty) record type is rejected by
`responseParameters.Validate` with the unknown-record-type error — the
code's own test expects exactly this — contradicting the claim that the
empty record type is accepted as "no assertion". -/
theorem validate_empty_recordType_rejected :
    ResponseParameters.Validate { authoritative := false, recordType := [], value := [] } =
      .error (.unknownRecordType []) := rfl

/-- C2 (amended): `responseParameters.Validate` accepts exactly the record
types whose lower-casing is one of a, aaaa, cname, txt (case-insensitive
membership in the fixed supported set); every other value — the empty
(unset) record type included — is rejected. -/
theorem validate_accepts_exactly_supported (r : ResponseParameters) :
    r.Validate = .ok () ↔ goToLower r.recordType ∈ supportedRecordTypes := by
  unfold ResponseParameters.Validate
  split
  next h => simp [h]
  next h => simp [h]

/-! Claim C7. -/

/-- C7 counterexample: with the `tcp` scheme and no TLS material the client
transport is `udp`, not the scheme's own plain `tcp` transport — `Net` is
initialized to `udp` and only ever upgraded to `tcp-tls`, never to `tcp`. -/
theorem clientNet_tcp_plain_uses_udp :
    dsTcp.u.scheme = tcpStr ∧ cfgOneGood.transportTLSSet = false ∧
    clientNet cfgOneGood dsTcp = udpStr ∧ udpStr ≠ tcpStr :=
  ⟨rfl, rfl, rfl, by decide⟩

/-- C7 (amended): the exchange uses the encrypted connection-oriented
transport (`tcp-tls`) exactly when TLS material is configured and the
endpoint scheme is `tcp`; in every other case — the `tcp` scheme without
TLS included — it uses the `udp` transport. -/
theorem clientNet_tls_iff (c : Config) (d : DNSSvr) :
    (clientNet c d = tcpTlsStr ↔ (c.transportTLSSet = true ∧ d.u.scheme = tcpStr)) ∧
    (¬ (c.transportTLSSet = true ∧ d.u.scheme = tcpStr) → clientNet c d = udpStr) := by
  unfold clientNet
  by_cases h : c.transportTLSSet = true ∧ d.u.scheme = tcpStr
  · rw [if_pos h]
    exact ⟨⟨fun _ => h, fun _ => rfl⟩, fun hn => absurd h hn⟩
  · rw [if_neg h]
    exact ⟨⟨fun he => absurd he (by decide), fun hh => absurd hh h⟩, fun _ => rfl⟩

/-- Witness for C7 (amended) at concrete inputs: TLS configured and `tcp`
scheme yields `tcp-tls`; no TLS yields `udp`. -/
theorem clientNet_tls_iff_witness :
    clientNet cfgOneGoodTLS dsTcp = tcpTlsStr ∧ clientNet cfgOneGood dsTcp = udpStr :=
  ⟨(clientNet_tls_iff cfgOneGoodTLS dsTcp).1.mpr ⟨rfl, rfl⟩,
   (clientNet_tls_iff cfgOneGood dsTcp).2 (by decide)⟩

/-! Claim C8. -/

/-- C8 counterexample: the published answer entry for a decoded A record
does not carry a `ttl` key — `execPing` publishes only `record_type`,
`value` and `name`. -/
theorem ansFields_missing_ttl :
    ("ttl".toList ∉ (ansFields ansExample).map Prod.fst) := by decide

/-- C8 (amended): every answer entry in the published result record carries
exactly the three fields `record_type`, `value` and `name`; the TTL, though
decoded into `DNSAnswer`, is not among the published per-answer fields. -/
theorem ansFields_keys (l : List RR) (entry : List (Str × Str))
    (h : entry ∈ ansSlice (execDecode l)) :
    entry.map Prod.fst = ["record_type".toList, "value".toList, "name".toList] ∧
    "ttl".toList ∉ entry.map Prod.fst := by
  obtain ⟨a, _, rfl⟩ := List.mem_map.mp h
  refine ⟨rfl, ?_⟩
  show "ttl".toList ∉ ["record_type".toList, "value".toList, "name".toList]
  decide

/-- Witness for C8 (amended) at a concrete published entry. -/
theorem ansFields_keys_witness :
    (ansFields ansExample).map Prod.fst =
      ["record_type".toList, "value".toList, "name".toList] ∧
    "ttl".toList ∉ (ansFields ansExample).map Prod.fst :=
  ansFields_keys [rrA] (ansFields ansExample) (by decide)

/-! Claim C3. -/

/-- The loop of `ValidateDNS` returns the error of the first failing entry,
whatever follows it. -/
theorem validateServers_fail_fast (front : List Str) (s : Str) (rest : List Str)
    (e : GoErr) (hfront : ∀ t ∈ front, checkDNSServer t = .ok ())
    (hs : checkDNSServer s = .error e) :
    validateServers (front ++ s :: rest) = .error e := by
  revert hfront
  induction front with
  | nil =>
    intro _
    simp only [List.nil_append, validateServers, hs]
  | cons t ts ih =>
    intro hfront
    have ht : checkDNSServer t = .ok () := hfront t (List.mem_cons_self t ts)
    simp only [List.cons_append, validateServers, ht]
    exact ih (fun x hx => hfront x (List.mem_cons_of_mem t hx))

/-- C3 counterexample: with two invalid server strings the returned error
names only the first one, and the result is identical to the result for the
configuration without the second invalid entry — the problems are not
aggregated into a multi-error. -/
theorem validateDNS_not_aggregated :
    Config.ValidateDNS cfgTwoBad = .error (.invalidDNSServer ("invalid..hostname".toList)) ∧
    Config.ValidateDNS cfgTwoBad = Config.ValidateDNS cfgInvalidHost :=
  ⟨rfl, rfl⟩

/-- C3 (amended): `Config.ValidateDNS` is fail-fast, not aggregating: the
returned error is exactly the error produced by the first invalid server
entry, and the entries after it do not influence the result. -/
theorem validateDNS_fail_fast (cfg : Config) (front : List Str) (s : Str)
    (rest : List Str) (e : GoErr) (hcfg : cfg.dnsServers = front ++ s :: rest)
    (hfront : ∀ t ∈ front, checkDNSServer t = .ok ())
    (hs : checkDNSServer s = .error e) :
    cfg.ValidateDNS = .error e := by
  unfold Config.ValidateDNS
  rw [hcfg]
  exact validateServers_fail_fast front s rest e hfront hs

/-- Witness for C3 (amended) on the concrete two-invalid-entries
configuration. -/
theorem validateDNS_fail_fast_witness :
    Config.ValidateDNS cfgTwoBad = .error (.invalidDNSServer ("invalid..hostname".toList)) :=
  validateDNS_fail_fast cfgTwoBad [] ("invalid..hostname".toList) ["also..bad".toList]
    (.invalidDNSServer ("invalid..hostname".toList)) rfl
    (fun t ht => absurd ht (List.not_mem_nil t)) rfl

/-! Claim C4. -/

/-- C4 counterexample: a server list containing only `256.256.256.256`
passes `Config.ValidateDNS`: the string is not an IP literal, but its
all-numeric labels pass the `isValidHostname` check, so no error is
returned — contradicting the claim that validation fails on it. -/
theorem validateDNS_256_accepted : Config.ValidateDNS cfg256 = .ok () := rfl

/-- C4 (amended): `ValidateDNS` succeeds on a list of `example.com` and
`8.8.8.8` and fails on `invalid..hostname`; but `256.256.256.256`, though
not an IP literal, passes the hostname check (all-numeric labels are
alphanumeric), so `ValidateDNS` accepts it. -/
theorem validateDNS_examples :
    Config.ValidateDNS cfgGoodServers = .ok () ∧
    Config.ValidateDNS cfgInvalidHost =
      .error (.invalidDNSServer ("invalid..hostname".toList)) ∧
    goParseIP ("256.256.256.256".toList) = none ∧
    isValidHostname ("256.256.256.256".toList) = true ∧
    Config.ValidateDNS cfg256 = .ok () :=
  ⟨rfl, rfl, rfl, by decide, rfl⟩

/-! Claim C10. -/

/-- A successful run of the `ValidateDNS` loop implies a successful parse of
every listed server. -/
theorem validateServers_ok_parse (l : List Str) (h : validateServers l = .ok ()) :
    ∀ s ∈ l, ∃ ds, parseDNSSvr s = .ok ds := by
  induction l with
  | nil =>
    intro s hs
    cases hs
  | cons t ts ih =>
    intro s hs
    have hsplit : checkDNSServer t = .ok () ∧ validateServers ts = .ok () := by
      unfold validateServers at h
      cases hct : checkDNSServer t with
      | error e =>
        rw [hct] at h
        cases h
      | ok u =>
        rw [hct] at h
        cases u
        exact ⟨rfl, h⟩
    rcases List.mem_cons.mp hs with heq | hmem
    · subst heq
      have hct := hsplit.1
      unfold checkDNSServer at hct
      cases hp : parseDNSSvr s with
      | error e =>
        rw [hp] at hct
        cases hct
      | ok ds => exact ⟨ds, rfl⟩
    · exact ih hsplit.2 s hmem

/-- C10: if `Config.ValidateDNS` returns no error then `parseDNSSvr`
succeeds on every string in the configured server list; hence the parse
error that `create` discards when building one job per endpoint is
unreachable under that precondition. -/
theorem validateDNS_ok_parse_ok (cfg : Config) (h : cfg.ValidateDNS = .ok ()) :
    ∀ s ∈ cfg.dnsServers, ∃ ds, parseDNSSvr s = .ok ds :=
  validateServers_ok_parse cfg.dnsServers h

/-- Witness for C10 on a concrete validated configuration. -/
theorem validateDNS_ok_parse_ok_witness :
    ∃ ds, parseDNSSvr ("8.8.8.8".toList) = .ok ds :=
  validateDNS_ok_parse_ok cfgOneGood rfl ("8.8.8.8".toList)
    (List.mem_cons_self _ _)

/-! Claim C5. -/

/-- The per-answer mismatch test as the specification words it, applied to a
decoded `(value, record-type)` pair: a value mismatch (naming the lower-cased
actual value and the expected value) when the expected value is set and
differs from the lower-cased decoded value, otherwise a type mismatch
(naming the actual and expected type) when the expected record type is set
and differs from the answer's tag, otherwise no mismatch. -/
def answerMismatch (eValue eType : Str) (p : Str × Str) : Option GoErr :=
  if eValue ≠ [] ∧ eValue ≠ goToLower p.1 then
    some (.valueMismatch (goToLower p.1) eValue)
  else if eType ≠ [] ∧ eType ≠ p.2 then
    some (.typeMismatch p.2 eType)
  else none

theorem checkLoop_findSome (eValue eType : Str) (l : List RR) :
    checkDNSResultLoop eValue eType l =
      match (l.filterMap rrDecode).findSome? (answerMismatch eValue eType) with
      | some e => .error e
      | none => .ok () := by
  induction l with
  | nil => rfl
  | cons rr rest ih =>
    cases hd : rrDecode rr with
    | none =>
      simp only [checkDNSResultLoop, hd, List.filterMap_cons_none hd, ih]
    | some p =>
      obtain ⟨v, t⟩ := p
      by_cases h1 : eValue ≠ [] ∧ eValue ≠ goToLower v
      · simp only [checkDNSResultLoop, hd, List.filterMap_cons_some hd,
          List.findSome?_cons, answerMismatch, if_pos h1]
      · by_cases h2 : eType ≠ [] ∧ eType ≠ t
        · simp only [checkDNSResultLoop, hd, List.filterMap_cons_some hd,
            List.findSome?_cons, answerMismatch, if_neg h1, if_pos h2]
        · simp only [checkDNSResultLoop, hd, List.filterMap_cons_some hd,
            List.findSome?_cons, answerMismatch, if_neg h1, if_neg h2, ih]

/-- C5: `checkDNSResult` implements exactly the specified scan: decode the
answers in received order, skipping unsupported record types; the first
mismatch — the value comparison before the type comparison, each naming
actual and expected — determines the returned error, and no mismatch means
success. -/
theorem checkDNSResult_first_mismatch (r : Msg) (eValue eType : Str) :
    checkDNSResult r eValue eType =
      match (r.answer.filterMap rrDecode).findSome? (answerMismatch eValue eType) with
      | some e => .error e
      | none => .ok () :=
  checkLoop_findSome eValue eType r.answer

/-! Claim C9. -/

/-- An expected value containing an ASCII uppercase letter mismatches every
supported answer the loop reaches, so the first supported answer produces
the value-mismatch error. -/
theorem checkLoop_upper_mismatch (eValue eType : Str)
    (hupper : ∃ c ∈ eValue, isUpperA c = true) :
    ∀ l : List RR, (∃ rr ∈ l, (rrDecode rr).isSome = true) →
      ∃ actual, checkDNSResultLoop eValue eType l = .error (.valueMismatch actual eValue) := by
  have hne : eValue ≠ [] := by
    obtain ⟨c, hc, _⟩ := hupper
    intro h0
    rw [h0] at hc
    cases hc
  intro l
  induction l with
  | nil =>
    intro hex
    obtain ⟨rr, hrr, _⟩ := hex
    cases hrr
  | cons rr rest ih =>
    intro hex
    cases hd : rrDecode rr with
    | some p =>
      obtain ⟨v, t⟩ := p
      have h1 : eValue ≠ [] ∧ eValue ≠ goToLower v :=
        ⟨hne, upper_ne_goToLower eValue v hupper⟩
      refine ⟨goToLower v, ?_⟩
      simp only [checkDNSResultLoop, hd, if_pos h1]
    | none =>
      have hex2 : ∃ rr2 ∈ rest, (rrDecode rr2).isSome = true := by
        obtain ⟨r2, hr2, hs2⟩ := hex
        rcases List.mem_cons.mp hr2 with h | h
        · subst h
          rw [hd] at hs2
          cases hs2
        · exact ⟨r2, h, hs2⟩
      obtain ⟨actual, ha⟩ := ih hex2
      refine ⟨actual, ?_⟩
      simp only [checkDNSResultLoop, hd, ha]

/-- C9: the decoded answer value is lower-cased before comparison while the
configured expected value is used verbatim, so an expected value containing
an ASCII uppercase letter can never match: for every response with at least
one answer of a supported record type, validation returns a value-mismatch
error. -/
theorem checkDNSResult_uppercase_expected_always_mismatch (r : Msg)
    (eValue eType : Str) (hupper : ∃ c ∈ eValue, isUpperA c = true)
    (hsupp : ∃ rr ∈ r.answer, (rrDecode rr).isSome = true) :
    ∃ actual, checkDNSResult r eValue eType = .error (.valueMismatch actual eValue) :=
  checkLoop_upper_mismatch eValue eType hupper r.answer hsupp

/-- Witness for C9: the expected value `Foo` against one decoded A record. -/
theorem checkDNSResult_uppercase_witness :
    ∃ actual, checkDNSResult { answer := [rrA] } ("Foo".toList) [] =
      .error (.valueMismatch actual ("Foo".toList)) :=
  checkDNSResult_uppercase_expected_always_mismatch { answer := [rrA] }
    ("Foo".toList) [] (by decide) ⟨rrA, List.mem_cons_self _ _, by decide⟩

/-! Claim C6. -/

/-- C6: endpoint parsing is idempotent: whenever `parseDNSSvr` succeeds,
re-parsing the `URL` string of the returned endpoint yields the identical
endpoint structure; and when the lower-cased input parses with an empty
host (the scheme-less case), the result is the same as for the input with
the synthesized `udp://` prefix. -/
theorem parseDNSSvr_idempotent (addr : Str) (ds : DNSSvr)
    (h : parseDNSSvr addr = .ok ds) :
    parseDNSSvr ds.url = .ok ds ∧
    (∀ u, urlParse (goToLower addr) = .ok u → u.host = [] →
      parseDNSSvr (udpPfx ++ addr) = .ok ds) := by
  unfold parseDNSSvr at h
  split at h
  case h_1 u heq1 =>
    split at h
    case isTrue hh =>
      split at h
      case h_1 u2 heq2 =>
        obtain ⟨hurl, hu, hhn⟩ := parseFinish_ok _ _ _ h
        have hh2 : u2.host ≠ [] := fun hc => hhn (urlHostname_nil u2 hc)
        have key : parseDNSSvr (udpPfx ++ addr) = .ok ds := by
          unfold parseDNSSvr
          split
          case h_1 u' heq' =>
            rw [heq2] at heq'
            injection heq' with heq''
            subst heq''
            rw [if_neg hh2]
            exact h
          case h_2 e' heq' =>
            rw [heq2] at heq'
            cases heq'
        refine ⟨?_, ?_⟩
        · rw [hurl]
          exact key
        · intro u' h1' _
          exact key
      case h_2 e heq2 =>
        cases h
    case isFalse hh =>
      obtain ⟨hurl, hu, _⟩ := parseFinish_ok _ _ _ h
      have key : parseDNSSvr addr = .ok ds := by
        unfold parseDNSSvr
        split
        case h_1 u' heq' =>
          rw [heq1] at heq'
          injection heq' with heq''
          subst heq''
          rw [if_neg hh]
          exact h
        case h_2 e' heq' =>
          rw [heq1] at heq'
          cases heq'
      refine ⟨?_, ?_⟩
      · rw [hurl]
        exact key
      · intro u' h1' hh'
        rw [heq1] at h1'
        injection h1' with h1''
        subst h1''
        exact absurd hh' hh
  case h_2 e1 heq1 =>
    split at h
    case h_1 u heqB =>
      split at h
      case isTrue hh =>
        split at h
        case h_1 u2 heq3 =>
          obtain ⟨hurl, hu, hhn⟩ := parseFinish_ok _ _ _ h
          have hh2 : u2.host ≠ [] := fun hc => hhn (urlHostname_nil u2 hc)
          refine ⟨?_, ?_⟩
          · rw [hurl]
            unfold parseDNSSvr
            split
            case h_1 u' heq' =>
              rw [heq3] at heq'
              injection heq' with heq''
              subst heq''
              rw [if_neg hh2]
              exact h
            case h_2 e' heq' =>
              rw [heq3] at heq'
              cases heq'
          · intro u' h1' _
            rw [heq1] at h1'
            cases h1'
        case h_2 e heq3 =>
          cases h
      case isFalse hh =>
        obtain ⟨hurl, hu, _⟩ := parseFinish_ok _ _ _ h
        refine ⟨?_, ?_⟩
        · rw [hurl]
          unfold parseDNSSvr
          split
          case h_1 u' heq' =>
            rw [heqB] at heq'
            injection heq' with heq''
            subst heq''
            rw [if_neg hh]
            exact h
          case h_2 e' heq' =>
            rw [heqB] at heq'
            cases heq'
        · intro u' h1' _
          rw [heq1] at h1'
          cases h1'
    case h_2 e heqB =>
      cases h

/-- Witness for C6: re-parsing the endpoint produced for `example.com`
(whose `URL` string has been defaulted to `udp://example.com`) yields the
same endpoint. -/
theorem parseDNSSvr_idempotent_witness :
    parseDNSSvr dsExample.url = .ok dsExample :=
  (parseDNSSvr_idempotent ("example.com".toList) dsExample rfl).1
